import Mathlib

/-!
Verification of the to-device event decode/validate pipeline
(`src/to_device.rs` of matrix-org/ruma-events).

The source file defines a ten-variant tagged union of to-device events, a
custom `Deserialize` for the raw union that dispatches on the `type` field,
a generic envelope deserializer extracting `content` then `sender`, and a
`TryFromRaw` conversion from the raw union to the validated union.

External collaborators (the per-content-type codecs, `ruma_identifiers::UserId`,
`crate::util::get_field`, `crate::util::try_variant_from_value`,
`crate::util::try_convert_variant`, and the `EventType` tag registry) are not
part of the source file; where their behaviour decides a property they are
modelled from the specification, as marked in the doc comments below.
-/

/-- Untyped JSON-like tree: the wire payload model (`serde_json::Value`). -/
inductive Json where
  | null
  | bool (b : Bool)
  | num (n : Int)
  | str (s : String)
  | arr (elems : List Json)
  | obj (fields : List (String × Json))
deriving Repr

/-- Field lookup in an association list of object fields, first match wins. -/
def lookupField : List (String × Json) → String → Option Json
  | [], _ => none
  | (k, v) :: rest, key => if k = key then some v else lookupField rest key

/-- `Value::get(field)` on the untyped tree: `some` on an object that has the
field, `none` on a missing field or a non-object value. -/
def Json.getObjField : Json → String → Option Json
  | .obj fields, key => lookupField fields key
  | _, _ => none

/-- Decode errors the deserializers in the source can signal through serde:
`missingField name` is `serde::de::Error::missing_field(name)` and
`custom msg` is `serde::de::Error::custom(msg)`.  The constructor
`unknownEventType tag` is modelled from the spec's error taxonomy
(`DecodeError::UnknownEventType(tag)`); it is present so that the spec's
claims about it can be stated, and the theorems below settle whether the
source's decoder ever produces it. -/
inductive DecodeError where
  | missingField (name : String)
  | unknownEventType (tag : String)
  | custom (msg : String)
deriving Repr, DecidableEq

/-- Modelled from the spec: `sender` is an opaque string-shaped identifier
(`ruma_identifiers::UserId`); its format checking is external to this
subsystem, so it is carried as a plain string. -/
abbrev UserId := String

/-- Modelled from the spec: decoding a `UserId` out of an untyped value
accepts exactly string-shaped values. -/
def decodeUserId : Json → Except String UserId
  | .str s => .ok s
  | _ => .error "invalid user id"

/-- The ten known to-device event kinds, in the declaration order of the
`ToDevice` enum in the source. -/
inductive Kind where
  | roomKey
  | roomEncrypted
  | forwardedRoomKey
  | roomKeyRequest
  | keyVerificationStart
  | keyVerificationAccept
  | keyVerificationKey
  | keyVerificationMac
  | keyVerificationCancel
  | keyVerificationRequest
deriving Repr, DecidableEq

/-- Modelled from the spec: the tag registry mapping wire discriminant
strings to the closed set of ten known to-device event kinds
(`EventType` lives outside the source file; the wire tags are the Matrix
event-type strings of the ten variants).  Unknown strings map to `none`. -/
def lookupTag (s : String) : Option Kind :=
  if s = "m.room_key" then some .roomKey
  else if s = "m.room.encrypted" then some .roomEncrypted
  else if s = "m.forwarded_room_key" then some .forwardedRoomKey
  else if s = "m.room_key_request" then some .roomKeyRequest
  else if s = "m.key.verification.start" then some .keyVerificationStart
  else if s = "m.key.verification.accept" then some .keyVerificationAccept
  else if s = "m.key.verification.key" then some .keyVerificationKey
  else if s = "m.key.verification.mac" then some .keyVerificationMac
  else if s = "m.key.verification.cancel" then some .keyVerificationCancel
  else if s = "m.key.verification.request" then some .keyVerificationRequest
  else none

/-- Modelled from the spec: one external content codec, the collaborator
interface of section 6 of the spec — a raw (structural) decoder from the
untyped tree, a fallible validation from raw to validated content, and a
serializer for the validated content.  Content errors are strings because
the union's `TryFromRaw` implementation fixes `type Err = String`. -/
structure Codec where
  Raw : Type
  Val : Type
  decodeRaw : Json → Except String Raw
  validate : Raw → Except String Val
  encode : Val → Json

/-- The bundle of the ten content codecs the source dispatches to, one per
variant, in source declaration order. -/
structure Codecs where
  roomKey : Codec
  roomEncrypted : Codec
  forwardedRoomKey : Codec
  roomKeyRequest : Codec
  keyVerificationStart : Codec
  keyVerificationAccept : Codec
  keyVerificationKey : Codec
  keyVerificationMac : Codec
  keyVerificationCancel : Codec
  keyVerificationRequest : Codec

/-- The codec a given kind dispatches to. -/
def Codecs.codec (cs : Codecs) : Kind → Codec
  | .roomKey => cs.roomKey
  | .roomEncrypted => cs.roomEncrypted
  | .forwardedRoomKey => cs.forwardedRoomKey
  | .roomKeyRequest => cs.roomKeyRequest
  | .keyVerificationStart => cs.keyVerificationStart
  | .keyVerificationAccept => cs.keyVerificationAccept
  | .keyVerificationKey => cs.keyVerificationKey
  | .keyVerificationMac => cs.keyVerificationMac
  | .keyVerificationCancel => cs.keyVerificationCancel
  | .keyVerificationRequest => cs.keyVerificationRequest

/-- `ToDeviceEvent<C>` (source lines 52-59): the envelope carrying `sender`
and `content`. -/
structure ToDeviceEvent (C : Type) where
  sender : UserId
  content : C

/-- Modelled from the spec: `crate::util::get_field` extracts a named field
from the untyped tree and runs a decoder on it; an absent field (including
a non-object payload) is `serde::de::Error::missing_field(field)`, and a
failure of the inner decoder surfaces as a custom serde error. -/
def getField (decodeInner : Json → Except String α) (v : Json) (field : String) :
    Except DecodeError α :=
  match Json.getObjField v field with
  | some j => (decodeInner j).mapError DecodeError.custom
  | none => .error (.missingField field)

/-- Modelled from the spec, step 1 of the decoder: extract the string field
named `type`; a missing or wrong-shaped field is `MissingField("type")`
(the `EventType` deserializer consuming it lives outside the source file). -/
def getTypeField (v : Json) : Except DecodeError String :=
  match Json.getObjField v "type" with
  | some (.str s) => .ok s
  | _ => .error (.missingField "type")

/-- `ToDeviceEvent::deserialize` (source lines 129-146): read the payload
into an untyped tree, then build the envelope extracting `content` first
and `sender` second with `get_field`. -/
def ToDeviceEvent.deserialize (decodeRaw : Json → Except String C) (v : Json) :
    Except DecodeError (ToDeviceEvent C) :=
  match getField decodeRaw v "content" with
  | .error e => .error e
  | .ok content =>
    match getField decodeUserId v "sender" with
    | .error e => .error e
    | .ok sender => .ok { sender, content }

/-- `raw::ToDevice` (source lines 192-213): the raw union, one variant per
kind, each carrying an envelope of that kind's raw content. -/
inductive RawToDevice (cs : Codecs) where
  | roomKey (e : ToDeviceEvent cs.roomKey.Raw)
  | roomEncrypted (e : ToDeviceEvent cs.roomEncrypted.Raw)
  | forwardedRoomKey (e : ToDeviceEvent cs.forwardedRoomKey.Raw)
  | roomKeyRequest (e : ToDeviceEvent cs.roomKeyRequest.Raw)
  | keyVerificationStart (e : ToDeviceEvent cs.keyVerificationStart.Raw)
  | keyVerificationAccept (e : ToDeviceEvent cs.keyVerificationAccept.Raw)
  | keyVerificationKey (e : ToDeviceEvent cs.keyVerificationKey.Raw)
  | keyVerificationMac (e : ToDeviceEvent cs.keyVerificationMac.Raw)
  | keyVerificationCancel (e : ToDeviceEvent cs.keyVerificationCancel.Raw)
  | keyVerificationRequest (e : ToDeviceEvent cs.keyVerificationRequest.Raw)

/-- `ToDevice` (source lines 29-50): the validated union. -/
inductive ToDevice (cs : Codecs) where
  | roomKey (e : ToDeviceEvent cs.roomKey.Val)
  | roomEncrypted (e : ToDeviceEvent cs.roomEncrypted.Val)
  | forwardedRoomKey (e : ToDeviceEvent cs.forwardedRoomKey.Val)
  | roomKeyRequest (e : ToDeviceEvent cs.roomKeyRequest.Val)
  | keyVerificationStart (e : ToDeviceEvent cs.keyVerificationStart.Val)
  | keyVerificationAccept (e : ToDeviceEvent cs.keyVerificationAccept.Val)
  | keyVerificationKey (e : ToDeviceEvent cs.keyVerificationKey.Val)
  | keyVerificationMac (e : ToDeviceEvent cs.keyVerificationMac.Val)
  | keyVerificationCancel (e : ToDeviceEvent cs.keyVerificationCancel.Val)
  | keyVerificationRequest (e : ToDeviceEvent cs.keyVerificationRequest.Val)

/-- Modelled from the spec and the source call sites:
`crate::util::try_variant_from_value(value, Variant)` deserializes the whole
untyped value into the variant's event type and wraps the result in the
variant constructor. -/
def tryVariantFromValue (decodeRaw : Json → Except String R)
    (variant : ToDeviceEvent R → β) (v : Json) : Except DecodeError β :=
  (ToDeviceEvent.deserialize decodeRaw v).map variant

/-- `raw::ToDevice::deserialize` (source lines 215-242): read the payload
into an untyped tree, extract the `type` field, dispatch on the resolved
kind to the matching variant decoder, and signal a fixed custom error on a
tag outside the ten known kinds. -/
def RawToDevice.deserialize (cs : Codecs) (v : Json) :
    Except DecodeError (RawToDevice cs) :=
  match getTypeField v with
  | .error e => .error e
  | .ok eventType =>
    match lookupTag eventType with
      | some .roomKey => tryVariantFromValue cs.roomKey.decodeRaw RawToDevice.roomKey v
      | some .roomEncrypted => tryVariantFromValue cs.roomEncrypted.decodeRaw RawToDevice.roomEncrypted v
      | some .forwardedRoomKey => tryVariantFromValue cs.forwardedRoomKey.decodeRaw RawToDevice.forwardedRoomKey v
      | some .roomKeyRequest => tryVariantFromValue cs.roomKeyRequest.decodeRaw RawToDevice.roomKeyRequest v
      | some .keyVerificationStart => tryVariantFromValue cs.keyVerificationStart.decodeRaw RawToDevice.keyVerificationStart v
      | some .keyVerificationAccept => tryVariantFromValue cs.keyVerificationAccept.decodeRaw RawToDevice.keyVerificationAccept v
      | some .keyVerificationKey => tryVariantFromValue cs.keyVerificationKey.decodeRaw RawToDevice.keyVerificationKey v
      | some .keyVerificationMac => tryVariantFromValue cs.keyVerificationMac.decodeRaw RawToDevice.keyVerificationMac v
      | some .keyVerificationCancel => tryVariantFromValue cs.keyVerificationCancel.decodeRaw RawToDevice.keyVerificationCancel v
      | some .keyVerificationRequest => tryVariantFromValue cs.keyVerificationRequest.decodeRaw RawToDevice.keyVerificationRequest v
      | none => .error (.custom "unknown to-device event")

/-- `ToDeviceEvent::try_from_raw` (source lines 121-127): validate the
content with the content type's conversion, pass `sender` through. -/
def ToDeviceEvent.tryFromRaw (validate : R → Except String C)
    (raw : ToDeviceEvent R) : Except String (ToDeviceEvent C) :=
  match validate raw.content with
  | .error e => .error e
  | .ok content => .ok { content, sender := raw.sender }

/-- Modelled from the spec and the source call sites:
`crate::util::try_convert_variant(Variant, c)` runs the event's raw-to-valid
conversion and wraps the result in the variant constructor; the union's
error type is `String` (source line 93), so the content error string passes
through. -/
def tryConvertVariant (validate : R → Except String C)
    (variant : ToDeviceEvent C → β) (e : ToDeviceEvent R) : Except String β :=
  (ToDeviceEvent.tryFromRaw validate e).map variant

/-- `ToDevice::try_from_raw` (source lines 95-111): variant-by-variant
conversion of the raw union into the validated union. -/
def ToDevice.tryFromRaw (cs : Codecs) : RawToDevice cs → Except String (ToDevice cs)
  | .roomKey c => tryConvertVariant cs.roomKey.validate ToDevice.roomKey c
  | .roomEncrypted c => tryConvertVariant cs.roomEncrypted.validate ToDevice.roomEncrypted c
  | .forwardedRoomKey c => tryConvertVariant cs.forwardedRoomKey.validate ToDevice.forwardedRoomKey c
  | .roomKeyRequest c => tryConvertVariant cs.roomKeyRequest.validate ToDevice.roomKeyRequest c
  | .keyVerificationStart c => tryConvertVariant cs.keyVerificationStart.validate ToDevice.keyVerificationStart c
  | .keyVerificationAccept c => tryConvertVariant cs.keyVerificationAccept.validate ToDevice.keyVerificationAccept c
  | .keyVerificationKey c => tryConvertVariant cs.keyVerificationKey.validate ToDevice.keyVerificationKey c
  | .keyVerificationMac c => tryConvertVariant cs.keyVerificationMac.validate ToDevice.keyVerificationMac c
  | .keyVerificationCancel c => tryConvertVariant cs.keyVerificationCancel.validate ToDevice.keyVerificationCancel c
  | .keyVerificationRequest c => tryConvertVariant cs.keyVerificationRequest.validate ToDevice.keyVerificationRequest c

/-- The active kind of a raw union value. -/
def RawToDevice.kind {cs : Codecs} : RawToDevice cs → Kind
  | .roomKey _ => .roomKey
  | .roomEncrypted _ => .roomEncrypted
  | .forwardedRoomKey _ => .forwardedRoomKey
  | .roomKeyRequest _ => .roomKeyRequest
  | .keyVerificationStart _ => .keyVerificationStart
  | .keyVerificationAccept _ => .keyVerificationAccept
  | .keyVerificationKey _ => .keyVerificationKey
  | .keyVerificationMac _ => .keyVerificationMac
  | .keyVerificationCancel _ => .keyVerificationCancel
  | .keyVerificationRequest _ => .keyVerificationRequest

/-- The active kind of a validated union value. -/
def ToDevice.kind {cs : Codecs} : ToDevice cs → Kind
  | .roomKey _ => .roomKey
  | .roomEncrypted _ => .roomEncrypted
  | .forwardedRoomKey _ => .forwardedRoomKey
  | .roomKeyRequest _ => .roomKeyRequest
  | .keyVerificationStart _ => .keyVerificationStart
  | .keyVerificationAccept _ => .keyVerificationAccept
  | .keyVerificationKey _ => .keyVerificationKey
  | .keyVerificationMac _ => .keyVerificationMac
  | .keyVerificationCancel _ => .keyVerificationCancel
  | .keyVerificationRequest _ => .keyVerificationRequest

/-- The `sender` of the envelope inside a raw union value. -/
def RawToDevice.sender {cs : Codecs} : RawToDevice cs → UserId
  | .roomKey e => e.sender
  | .roomEncrypted e => e.sender
  | .forwardedRoomKey e => e.sender
  | .roomKeyRequest e => e.sender
  | .keyVerificationStart e => e.sender
  | .keyVerificationAccept e => e.sender
  | .keyVerificationKey e => e.sender
  | .keyVerificationMac e => e.sender
  | .keyVerificationCancel e => e.sender
  | .keyVerificationRequest e => e.sender

/-- The `sender` of the envelope inside a validated union value. -/
def ToDevice.sender {cs : Codecs} : ToDevice cs → UserId
  | .roomKey e => e.sender
  | .roomEncrypted e => e.sender
  | .forwardedRoomKey e => e.sender
  | .roomKeyRequest e => e.sender
  | .keyVerificationStart e => e.sender
  | .keyVerificationAccept e => e.sender
  | .keyVerificationKey e => e.sender
  | .keyVerificationMac e => e.sender
  | .keyVerificationCancel e => e.sender
  | .keyVerificationRequest e => e.sender

/-- The raw content inside a raw union value, at its kind's raw type. -/
def RawToDevice.content {cs : Codecs} : (raw : RawToDevice cs) → (cs.codec raw.kind).Raw
  | .roomKey e => e.content
  | .roomEncrypted e => e.content
  | .forwardedRoomKey e => e.content
  | .roomKeyRequest e => e.content
  | .keyVerificationStart e => e.content
  | .keyVerificationAccept e => e.content
  | .keyVerificationKey e => e.content
  | .keyVerificationMac e => e.content
  | .keyVerificationCancel e => e.content
  | .keyVerificationRequest e => e.content

/-- The validated content inside a validated union value. -/
def ToDevice.content {cs : Codecs} : (t : ToDevice cs) → (cs.codec t.kind).Val
  | .roomKey e => e.content
  | .roomEncrypted e => e.content
  | .forwardedRoomKey e => e.content
  | .roomKeyRequest e => e.content
  | .keyVerificationStart e => e.content
  | .keyVerificationAccept e => e.content
  | .keyVerificationKey e => e.content
  | .keyVerificationMac e => e.content
  | .keyVerificationCancel e => e.content
  | .keyVerificationRequest e => e.content

/-- Build the raw union variant of a given kind from an envelope of that
kind's raw content type. -/
def RawToDevice.ofKind (cs : Codecs) :
    (k : Kind) → ToDeviceEvent (cs.codec k).Raw → RawToDevice cs
  | .roomKey, e => .roomKey e
  | .roomEncrypted, e => .roomEncrypted e
  | .forwardedRoomKey, e => .forwardedRoomKey e
  | .roomKeyRequest, e => .roomKeyRequest e
  | .keyVerificationStart, e => .keyVerificationStart e
  | .keyVerificationAccept, e => .keyVerificationAccept e
  | .keyVerificationKey, e => .keyVerificationKey e
  | .keyVerificationMac, e => .keyVerificationMac e
  | .keyVerificationCancel, e => .keyVerificationCancel e
  | .keyVerificationRequest, e => .keyVerificationRequest e

/-- Build the validated union variant of a given kind from an envelope of
that kind's validated content type. -/
def ToDevice.ofKind (cs : Codecs) :
    (k : Kind) → ToDeviceEvent (cs.codec k).Val → ToDevice cs
  | .roomKey, e => .roomKey e
  | .roomEncrypted, e => .roomEncrypted e
  | .forwardedRoomKey, e => .forwardedRoomKey e
  | .roomKeyRequest, e => .roomKeyRequest e
  | .keyVerificationStart, e => .keyVerificationStart e
  | .keyVerificationAccept, e => .keyVerificationAccept e
  | .keyVerificationKey, e => .keyVerificationKey e
  | .keyVerificationMac, e => .keyVerificationMac e
  | .keyVerificationCancel, e => .keyVerificationCancel e
  | .keyVerificationRequest, e => .keyVerificationRequest e

/-- The derived `Serialize` of `ToDeviceEvent<C>` (source line 52): a struct
serializes as an object with its fields in declaration order, `sender` then
`content`. -/
def ToDeviceEvent.serialize (encode : C → Json) (e : ToDeviceEvent C) : Json :=
  .obj [("sender", .str e.sender), ("content", encode e.content)]

/-- The derived `Serialize` of the `ToDevice` enum (source line 27): serde's
default externally tagged representation, an object with the Rust variant
name as the single key. -/
def ToDevice.serialize (cs : Codecs) : ToDevice cs → Json
  | .roomKey e => .obj [("RoomKey", e.serialize cs.roomKey.encode)]
  | .roomEncrypted e => .obj [("RoomEncrypted", e.serialize cs.roomEncrypted.encode)]
  | .forwardedRoomKey e => .obj [("ForwardedRoomKey", e.serialize cs.forwardedRoomKey.encode)]
  | .roomKeyRequest e => .obj [("RoomKeyRequest", e.serialize cs.roomKeyRequest.encode)]
  | .keyVerificationStart e => .obj [("KeyVerificationStart", e.serialize cs.keyVerificationStart.encode)]
  | .keyVerificationAccept e => .obj [("KeyVerificationAccept", e.serialize cs.keyVerificationAccept.encode)]
  | .keyVerificationKey e => .obj [("KeyVerificationKey", e.serialize cs.keyVerificationKey.encode)]
  | .keyVerificationMac e => .obj [("KeyVerificationMac", e.serialize cs.keyVerificationMac.encode)]
  | .keyVerificationCancel e => .obj [("KeyVerificationCancel", e.serialize cs.keyVerificationCancel.encode)]
  | .keyVerificationRequest e => .obj [("KeyVerificationRequest", e.serialize cs.keyVerificationRequest.encode)]

/-- Re-wrap a validated union value as a raw one, given a per-kind map from
validated content back to raw content (the content types' re-wrapping is
external to the source file). -/
def ToDevice.rewrapWith (cs : Codecs)
    (rewrap : (k : Kind) → (cs.codec k).Val → (cs.codec k).Raw) :
    ToDevice cs → RawToDevice cs
  | .roomKey e => .roomKey ⟨e.sender, rewrap .roomKey e.content⟩
  | .roomEncrypted e => .roomEncrypted ⟨e.sender, rewrap .roomEncrypted e.content⟩
  | .forwardedRoomKey e => .forwardedRoomKey ⟨e.sender, rewrap .forwardedRoomKey e.content⟩
  | .roomKeyRequest e => .roomKeyRequest ⟨e.sender, rewrap .roomKeyRequest e.content⟩
  | .keyVerificationStart e => .keyVerificationStart ⟨e.sender, rewrap .keyVerificationStart e.content⟩
  | .keyVerificationAccept e => .keyVerificationAccept ⟨e.sender, rewrap .keyVerificationAccept e.content⟩
  | .keyVerificationKey e => .keyVerificationKey ⟨e.sender, rewrap .keyVerificationKey e.content⟩
  | .keyVerificationMac e => .keyVerificationMac ⟨e.sender, rewrap .keyVerificationMac e.content⟩
  | .keyVerificationCancel e => .keyVerificationCancel ⟨e.sender, rewrap .keyVerificationCancel e.content⟩
  | .keyVerificationRequest e => .keyVerificationRequest ⟨e.sender, rewrap .keyVerificationRequest e.content⟩

/-- A trivial concrete codec for witnesses: raw and validated content are
both untyped trees, structural decode and validation always succeed. -/
def trivCodec : Codec where
  Raw := Json
  Val := Json
  decodeRaw := fun j => .ok j
  validate := fun j => .ok j
  encode := fun j => j

/-- The trivial codec at every kind. -/
def trivCodecs : Codecs where
  roomKey := trivCodec
  roomEncrypted := trivCodec
  forwardedRoomKey := trivCodec
  roomKeyRequest := trivCodec
  keyVerificationStart := trivCodec
  keyVerificationAccept := trivCodec
  keyVerificationKey := trivCodec
  keyVerificationMac := trivCodec
  keyVerificationCancel := trivCodec
  keyVerificationRequest := trivCodec

/-- A codec whose validation always fails, for probing error propagation. -/
def failCodec : Codec where
  Raw := Json
  Val := Json
  decodeRaw := fun j => .ok j
  validate := fun _ => .error "boom"
  encode := fun j => j

/-- The always-failing codec at every kind. -/
def failCodecs : Codecs where
  roomKey := failCodec
  roomEncrypted := failCodec
  forwardedRoomKey := failCodec
  roomKeyRequest := failCodec
  keyVerificationStart := failCodec
  keyVerificationAccept := failCodec
  keyVerificationKey := failCodec
  keyVerificationMac := failCodec
  keyVerificationCancel := failCodec
  keyVerificationRequest := failCodec

/-- If the variant conversion succeeds, its result is the variant applied to
the validated envelope (same sender, validated content). -/
theorem tryConvertVariant_ok (validate : R → Except String C)
    (variant : ToDeviceEvent C → β) (e : ToDeviceEvent R) (b : β)
    (h : tryConvertVariant validate variant e = .ok b) :
    ∃ c, validate e.content = .ok c ∧ b = variant ⟨e.sender, c⟩ := by
  unfold tryConvertVariant ToDeviceEvent.tryFromRaw at h
  cases hv : validate e.content with
  | error err => rw [hv] at h; simp [Except.map] at h
  | ok c =>
      rw [hv] at h
      simp [Except.map] at h
      exact ⟨c, rfl, h.symm⟩

/-- Claim C5: the raw-to-validated conversion is variant-preserving — a
successful `try_from_raw` on a raw union value of a given variant produces
the validated union value of the same variant (kind), never another. -/
theorem validate_preserves_variant (cs : Codecs) (raw : RawToDevice cs)
    (t : ToDevice cs) (h : ToDevice.tryFromRaw cs raw = .ok t) :
    ToDevice.kind t = RawToDevice.kind raw := by
  cases raw <;>
    · obtain ⟨c, hv, rfl⟩ := tryConvertVariant_ok _ _ _ _ h
      rfl

/-- Claim C6: for every raw union value on which validation succeeds, the
`sender` of the validated envelope equals the `sender` of the raw envelope;
only `content` is transformed. -/
theorem validate_preserves_sender (cs : Codecs) (raw : RawToDevice cs)
    (t : ToDevice cs) (h : ToDevice.tryFromRaw cs raw = .ok t) :
    ToDevice.sender t = RawToDevice.sender raw := by
  cases raw <;>
    · obtain ⟨c, hv, rfl⟩ := tryConvertVariant_ok _ _ _ _ h
      rfl

/-- Dispatch shape of the union decoder once the `type` field has been read
successfully: the result is the ten-way match on the tag registry lookup. -/
theorem RawToDevice.deserialize_ok_tag (cs : Codecs) (v : Json) (tag : String)
    (hgt : getTypeField v = .ok tag) :
    RawToDevice.deserialize cs v =
      match lookupTag tag with
      | some .roomKey => tryVariantFromValue cs.roomKey.decodeRaw RawToDevice.roomKey v
      | some .roomEncrypted => tryVariantFromValue cs.roomEncrypted.decodeRaw RawToDevice.roomEncrypted v
      | some .forwardedRoomKey => tryVariantFromValue cs.forwardedRoomKey.decodeRaw RawToDevice.forwardedRoomKey v
      | some .roomKeyRequest => tryVariantFromValue cs.roomKeyRequest.decodeRaw RawToDevice.roomKeyRequest v
      | some .keyVerificationStart => tryVariantFromValue cs.keyVerificationStart.decodeRaw RawToDevice.keyVerificationStart v
      | some .keyVerificationAccept => tryVariantFromValue cs.keyVerificationAccept.decodeRaw RawToDevice.keyVerificationAccept v
      | some .keyVerificationKey => tryVariantFromValue cs.keyVerificationKey.decodeRaw RawToDevice.keyVerificationKey v
      | some .keyVerificationMac => tryVariantFromValue cs.keyVerificationMac.decodeRaw RawToDevice.keyVerificationMac v
      | some .keyVerificationCancel => tryVariantFromValue cs.keyVerificationCancel.decodeRaw RawToDevice.keyVerificationCancel v
      | some .keyVerificationRequest => tryVariantFromValue cs.keyVerificationRequest.decodeRaw RawToDevice.keyVerificationRequest v
      | none => .error (.custom "unknown to-device event") := by
  unfold RawToDevice.deserialize
  rw [hgt]

/-- For a recognized tag, the union decoder is the envelope decoder of that
kind's codec wrapped in that kind's variant. -/
theorem deserialize_known (cs : Codecs) (v : Json) (tag : String) (k : Kind)
    (hgt : getTypeField v = .ok tag) (hk : lookupTag tag = some k) :
    RawToDevice.deserialize cs v =
      (ToDeviceEvent.deserialize (cs.codec k).decodeRaw v).map (RawToDevice.ofKind cs k) := by
  rw [RawToDevice.deserialize_ok_tag cs v tag hgt, hk]
  cases k <;> rfl

/-- Envelope decoding fails on a missing `content` field, whatever `sender`
holds. -/
theorem ToDeviceEvent.deserialize_content_missing (d : Json → Except String C)
    (v : Json) (h : Json.getObjField v "content" = none) :
    ToDeviceEvent.deserialize d v = .error (.missingField "content") := by
  unfold ToDeviceEvent.deserialize getField
  rw [h]

/-- Envelope decoding fails on a missing `sender` field once `content`
decoded. -/
theorem ToDeviceEvent.deserialize_sender_missing (d : Json → Except String C)
    (v : Json) (cj : Json) (rc : C) (hc : Json.getObjField v "content" = some cj)
    (hd : d cj = .ok rc) (hs : Json.getObjField v "sender" = none) :
    ToDeviceEvent.deserialize d v = .error (.missingField "sender") := by
  unfold ToDeviceEvent.deserialize getField
  rw [hc, hs]
  simp [hd, Except.mapError]

/-- Envelope decoding succeeds when `content` decodes and `sender` is a
string, yielding exactly that sender and content. -/
theorem ToDeviceEvent.deserialize_ok (d : Json → Except String C) (v : Json)
    (cj : Json) (rc : C) (s : String) (hc : Json.getObjField v "content" = some cj)
    (hd : d cj = .ok rc) (hs : Json.getObjField v "sender" = some (.str s)) :
    ToDeviceEvent.deserialize d v = .ok ⟨s, rc⟩ := by
  unfold ToDeviceEvent.deserialize getField
  rw [hc, hs]
  simp [hd, Except.mapError, decodeUserId]

/-- A well-formed room-key payload: the concrete scenario of the spec. -/
def roomKeyPayload : Json :=
  .obj [("type", .str "m.room_key"), ("sender", .str "@alice:example.org"),
    ("content", .obj [("algorithm", .str "m.megolm.v1.aes-sha2")])]

/-- The content sub-object of `roomKeyPayload`. -/
def keyContent : Json := .obj [("algorithm", .str "m.megolm.v1.aes-sha2")]

/-- A payload whose tag is outside the ten known kinds. -/
def bogusPayload : Json :=
  .obj [("type", .str "m.bogus"), ("sender", .str "@bob:example.org"),
    ("content", .obj [])]

/-- A payload with no `type` field at all. -/
def noTypePayload : Json :=
  .obj [("sender", .str "@bob:example.org"), ("content", .obj [])]

/-- A payload with a recognized tag and a `content` field but no `sender`. -/
def noSenderPayload : Json :=
  .obj [("type", .str "m.room_key"), ("content", .obj [])]

/-- Claim C2 (amended): on a payload whose `type` is a string outside the
ten known tags, decode fails with the fixed custom error message
"unknown to-device event"; the unrecognized tag string is dropped, not
carried in the error. -/
theorem decode_unknown_tag_fixed_error (cs : Codecs) (v : Json) (tag : String)
    (htag : Json.getObjField v "type" = some (.str tag))
    (hk : lookupTag tag = none) :
    RawToDevice.deserialize cs v = .error (.custom "unknown to-device event") := by
  rw [RawToDevice.deserialize_ok_tag cs v tag (by unfold getTypeField; rw [htag]), hk]

/-- Claim C2 counterexample: on the concrete payload with unknown tag
"m.bogus", decode returns the fixed custom error and not an
`UnknownEventType` error carrying the tag verbatim. -/
theorem decode_unknown_tag_cex :
    RawToDevice.deserialize trivCodecs bogusPayload =
      .error (.custom "unknown to-device event") ∧
    RawToDevice.deserialize trivCodecs bogusPayload ≠
      .error (.unknownEventType "m.bogus") := by
  have hfix : RawToDevice.deserialize trivCodecs bogusPayload =
      .error (.custom "unknown to-device event") :=
    decode_unknown_tag_fixed_error trivCodecs bogusPayload "m.bogus" rfl rfl
  refine ⟨hfix, ?_⟩
  intro hcon
  rw [hfix] at hcon
  exact DecodeError.noConfusion (Except.error.inj hcon)

/-- Claim C2 amended-theorem witness on the concrete bogus payload. -/
theorem decode_unknown_tag_fixed_error_witness :
    Json.getObjField bogusPayload "type" = some (.str "m.bogus") ∧
    lookupTag "m.bogus" = none ∧
    RawToDevice.deserialize trivCodecs bogusPayload =
      .error (.custom "unknown to-device event") :=
  ⟨rfl, rfl, decode_unknown_tag_fixed_error trivCodecs bogusPayload "m.bogus" rfl rfl⟩

/-- Claim C3: on every payload with no string field named `type` at top
level, decode fails with `MissingField("type")`, and in particular never
with an `UnknownEventType` error. -/
theorem decode_missing_type_field (cs : Codecs) (v : Json)
    (h : ∀ s, Json.getObjField v "type" ≠ some (.str s)) :
    RawToDevice.deserialize cs v = .error (.missingField "type") ∧
    ∀ tag, RawToDevice.deserialize cs v ≠ .error (.unknownEventType tag) := by
  have hgt : getTypeField v = .error (.missingField "type") := by
    cases hj : Json.getObjField v "type" with
    | none => unfold getTypeField; rw [hj]
    | some j =>
        cases j with
        | str s => exact absurd hj (h s)
        | null => unfold getTypeField; rw [hj]
        | bool b => unfold getTypeField; rw [hj]
        | num n => unfold getTypeField; rw [hj]
        | arr elems => unfold getTypeField; rw [hj]
        | obj fields => unfold getTypeField; rw [hj]
  have hd : RawToDevice.deserialize cs v = .error (.missingField "type") := by
    unfold RawToDevice.deserialize
    rw [hgt]
  refine ⟨hd, fun tag hcon => ?_⟩
  rw [hd] at hcon
  exact DecodeError.noConfusion (Except.error.inj hcon)

/-- Claim C3 witness on the concrete payload lacking `type`. -/
theorem decode_missing_type_field_witness :
    (∀ s, Json.getObjField noTypePayload "type" ≠ some (.str s)) ∧
    (RawToDevice.deserialize trivCodecs noTypePayload =
        .error (.missingField "type") ∧
      ∀ tag, RawToDevice.deserialize trivCodecs noTypePayload ≠
        .error (.unknownEventType tag)) :=
  ⟨fun _s hcon => Option.noConfusion hcon,
    decode_missing_type_field trivCodecs noTypePayload
      (fun _s hcon => Option.noConfusion hcon)⟩

/-- Claim C1: for every payload whose `type` names one of the ten known
kinds and whose `sender` and `content` are well-formed for that kind,
decoding and then validating yields the union variant matching the tag,
carrying the original `sender` and the content obtained by decoding and
validating the `content` sub-object directly with that kind's codec. -/
theorem decode_then_validate_known_tag (cs : Codecs) (v : Json) (tag : String)
    (k : Kind) (s : String) (cj : Json) (rc : (cs.codec k).Raw)
    (c : (cs.codec k).Val)
    (htag : Json.getObjField v "type" = some (.str tag))
    (hk : lookupTag tag = some k)
    (hs : Json.getObjField v "sender" = some (.str s))
    (hc : Json.getObjField v "content" = some cj)
    (hdec : (cs.codec k).decodeRaw cj = .ok rc)
    (hval : (cs.codec k).validate rc = .ok c) :
    RawToDevice.deserialize cs v = .ok (RawToDevice.ofKind cs k ⟨s, rc⟩) ∧
    ToDevice.tryFromRaw cs (RawToDevice.ofKind cs k ⟨s, rc⟩) =
      .ok (ToDevice.ofKind cs k ⟨s, c⟩) := by
  have hgt : getTypeField v = .ok tag := by unfold getTypeField; rw [htag]
  constructor
  · rw [deserialize_known cs v tag k hgt hk,
      ToDeviceEvent.deserialize_ok _ _ cj rc s hc hdec hs]
    rfl
  · cases k <;>
      · simp only [Codecs.codec] at hval
        simp [RawToDevice.ofKind, ToDevice.ofKind, ToDevice.tryFromRaw,
          tryConvertVariant, ToDeviceEvent.tryFromRaw, hval, Except.map]

/-- Claim C1 witness: the spec's concrete room-key scenario, with the
trivial codec standing for the external content codec. -/
theorem decode_then_validate_known_tag_witness :
    Json.getObjField roomKeyPayload "type" = some (.str "m.room_key") ∧
    lookupTag "m.room_key" = some Kind.roomKey ∧
    Json.getObjField roomKeyPayload "sender" = some (.str "@alice:example.org") ∧
    Json.getObjField roomKeyPayload "content" = some keyContent ∧
    (RawToDevice.deserialize trivCodecs roomKeyPayload =
        .ok (RawToDevice.ofKind trivCodecs .roomKey ⟨"@alice:example.org", keyContent⟩) ∧
      ToDevice.tryFromRaw trivCodecs
          (RawToDevice.ofKind trivCodecs .roomKey ⟨"@alice:example.org", keyContent⟩) =
        .ok (ToDevice.ofKind trivCodecs .roomKey ⟨"@alice:example.org", keyContent⟩)) :=
  ⟨rfl, rfl, rfl, rfl,
    decode_then_validate_known_tag trivCodecs roomKeyPayload "m.room_key" .roomKey
      "@alice:example.org" keyContent keyContent keyContent rfl rfl rfl rfl rfl rfl⟩

/-- Claim C4: the envelope decoder extracts `content` before `sender` in one
fixed order — with a recognized tag, a missing `content` fails with
`MissingField("content")` whatever `sender` holds (so with both missing the
reported failure is the content one), a missing `sender` with decodable
content fails with `MissingField("sender")`, and on success the result is
the sender/content pair independent of extraction order. -/
theorem decode_envelope_field_order (cs : Codecs) (v : Json) (tag : String)
    (k : Kind) (htag : Json.getObjField v "type" = some (.str tag))
    (hk : lookupTag tag = some k) :
    (Json.getObjField v "content" = none →
      RawToDevice.deserialize cs v = .error (.missingField "content")) ∧
    (∀ cj rc, Json.getObjField v "content" = some cj →
      (cs.codec k).decodeRaw cj = .ok rc →
      Json.getObjField v "sender" = none →
      RawToDevice.deserialize cs v = .error (.missingField "sender")) ∧
    (∀ cj rc s, Json.getObjField v "content" = some cj →
      (cs.codec k).decodeRaw cj = .ok rc →
      Json.getObjField v "sender" = some (.str s) →
      RawToDevice.deserialize cs v = .ok (RawToDevice.ofKind cs k ⟨s, rc⟩)) := by
  have hgt : getTypeField v = .ok tag := by unfold getTypeField; rw [htag]
  have hdis := deserialize_known cs v tag k hgt hk
  refine ⟨?_, ?_, ?_⟩
  · intro hc
    rw [hdis, ToDeviceEvent.deserialize_content_missing _ _ hc]
    rfl
  · intro cj rc hc hd hs
    rw [hdis, ToDeviceEvent.deserialize_sender_missing _ _ cj rc hc hd hs]
    rfl
  · intro cj rc s hc hd hs
    rw [hdis, ToDeviceEvent.deserialize_ok _ _ cj rc s hc hd hs]
    rfl

/-- Claim C4 witness: the payload with a recognized tag and a `content`
object but no `sender` decodes to exactly `MissingField("sender")`. -/
theorem decode_envelope_field_order_witness :
    Json.getObjField noSenderPayload "type" = some (.str "m.room_key") ∧
    lookupTag "m.room_key" = some Kind.roomKey ∧
    RawToDevice.deserialize trivCodecs noSenderPayload =
      .error (.missingField "sender") :=
  ⟨rfl, rfl,
    (decode_envelope_field_order trivCodecs noSenderPayload "m.room_key"
        .roomKey rfl rfl).2.1 (Json.obj []) (Json.obj []) rfl rfl rfl⟩

/-- A concrete raw room-key event over the trivial codecs. -/
def rawKeyExample : RawToDevice trivCodecs :=
  .roomKey ⟨"@alice:example.org", Json.obj [("algorithm", .str "m.megolm.v1.aes-sha2")]⟩

/-- The validated value `rawKeyExample` converts to. -/
def tdKeyExample : ToDevice trivCodecs :=
  .roomKey ⟨"@alice:example.org", Json.obj [("algorithm", .str "m.megolm.v1.aes-sha2")]⟩

/-- A concrete raw verification-cancel event over the trivial codecs. -/
def rawCancelExample : RawToDevice trivCodecs :=
  .keyVerificationCancel ⟨"@bob:example.org", Json.obj [("code", .str "m.user")]⟩

/-- The validated value `rawCancelExample` converts to. -/
def tdCancelExample : ToDevice trivCodecs :=
  .keyVerificationCancel ⟨"@bob:example.org", Json.obj [("code", .str "m.user")]⟩

/-- Claim C5 witness on a concrete raw room-key event. -/
theorem validate_preserves_variant_witness :
    ToDevice.tryFromRaw trivCodecs rawKeyExample = .ok tdKeyExample ∧
    ToDevice.kind tdKeyExample = RawToDevice.kind rawKeyExample :=
  ⟨rfl, validate_preserves_variant trivCodecs rawKeyExample tdKeyExample rfl⟩

/-- Claim C6 witness on a concrete raw verification-cancel event. -/
theorem validate_preserves_sender_witness :
    ToDevice.tryFromRaw trivCodecs rawCancelExample = .ok tdCancelExample ∧
    ToDevice.sender tdCancelExample = RawToDevice.sender rawCancelExample :=
  ⟨rfl, validate_preserves_sender trivCodecs rawCancelExample tdCancelExample rfl⟩

/-- A raw room-key event over the always-failing codecs. -/
def rawKeyFailExample : RawToDevice failCodecs :=
  .roomKey ⟨"@alice:example.org", Json.null⟩

/-- A raw room-encrypted event over the always-failing codecs. -/
def rawEncFailExample : RawToDevice failCodecs :=
  .roomEncrypted ⟨"@alice:example.org", Json.null⟩

/-- Claim C7 counterexample: the union's error type is the plain `String`
fixed by the source (`type Err = String`), so validation failures of two
different variants whose content validators emit the same message are
indistinguishable — the error is not tagged with the failing variant as a
`ContentError::<Variant>(inner)` value would be. -/
theorem validate_error_untagged_cex :
    ToDevice.tryFromRaw failCodecs rawKeyFailExample = .error "boom" ∧
    ToDevice.tryFromRaw failCodecs rawEncFailExample = .error "boom" ∧
    RawToDevice.kind rawKeyFailExample ≠ RawToDevice.kind rawEncFailExample :=
  ⟨rfl, rfl, by decide⟩

/-- Claim C7 (amended): when the content validator of the active variant
fails, `try_from_raw` surfaces that validator's error string unchanged —
but as a bare string, without any tagging by the failing variant. -/
theorem validate_surfaces_content_error (cs : Codecs) (raw : RawToDevice cs)
    (e : String) (h : (cs.codec raw.kind).validate raw.content = .error e) :
    ToDevice.tryFromRaw cs raw = .error e := by
  cases raw <;>
    · simp only [RawToDevice.kind, RawToDevice.content, Codecs.codec] at h
      simp [ToDevice.tryFromRaw, tryConvertVariant, ToDeviceEvent.tryFromRaw,
        h, Except.map]

/-- Claim C7 amended-theorem witness on a concrete failing validation. -/
theorem validate_surfaces_content_error_witness :
    (failCodecs.codec (RawToDevice.kind rawKeyFailExample)).validate
        (RawToDevice.content rawKeyFailExample) = .error "boom" ∧
    ToDevice.tryFromRaw failCodecs rawKeyFailExample = .error "boom" :=
  ⟨rfl, validate_surfaces_content_error failCodecs rawKeyFailExample "boom" rfl⟩

/-- Claim C8 (code bug): the derived serializer of the validated union emits
serde's externally tagged tree — the Rust variant name as single key, and no
top-level `type` field (contradicting the module's own doc that a to-device
event consists of `content`, `type` and `sender`) — so decoding what was
encoded fails with `MissingField("type")` instead of round-tripping. -/
theorem serialize_then_decode_fails :
    ToDevice.serialize trivCodecs tdKeyExample =
      .obj [("RoomKey", .obj [("sender", .str "@alice:example.org"),
        ("content", .obj [("algorithm", .str "m.megolm.v1.aes-sha2")])])] ∧
    RawToDevice.deserialize trivCodecs (ToDevice.serialize trivCodecs tdKeyExample) =
      .error (.missingField "type") :=
  ⟨rfl, rfl⟩

/-- Claim C9: validation is idempotent — re-wrapping an already validated
value into raw form (via any per-kind re-wrap of the content) and running
`try_from_raw` again succeeds with an equal value, provided the content
codec validates the re-wrapped content back to the same content (the
content types and their re-wrapping live outside the source file). -/
theorem validate_idempotent_on_rewrapped (cs : Codecs)
    (rewrap : (k : Kind) → (cs.codec k).Val → (cs.codec k).Raw)
    (td : ToDevice cs)
    (h : (cs.codec td.kind).validate (rewrap td.kind td.content) = .ok td.content) :
    ToDevice.tryFromRaw cs (ToDevice.rewrapWith cs rewrap td) = .ok td := by
  cases td <;>
    · simp only [ToDevice.kind, ToDevice.content, Codecs.codec] at h
      simp [ToDevice.rewrapWith, ToDevice.tryFromRaw, tryConvertVariant,
        ToDeviceEvent.tryFromRaw, h, Except.map]

/-- The identity re-wrap over the trivial codecs, where raw and validated
content coincide. -/
def trivRewrap : (k : Kind) → (trivCodecs.codec k).Val → (trivCodecs.codec k).Raw
  | .roomKey => fun j => j
  | .roomEncrypted => fun j => j
  | .forwardedRoomKey => fun j => j
  | .roomKeyRequest => fun j => j
  | .keyVerificationStart => fun j => j
  | .keyVerificationAccept => fun j => j
  | .keyVerificationKey => fun j => j
  | .keyVerificationMac => fun j => j
  | .keyVerificationCancel => fun j => j
  | .keyVerificationRequest => fun j => j

/-- Claim C9 witness on a concrete validated verification-cancel value. -/
theorem validate_idempotent_on_rewrapped_witness :
    (trivCodecs.codec (ToDevice.kind tdCancelExample)).validate
        (trivRewrap (ToDevice.kind tdCancelExample) (ToDevice.content tdCancelExample)) =
      .ok (ToDevice.content tdCancelExample) ∧
    ToDevice.tryFromRaw trivCodecs
        (ToDevice.rewrapWith trivCodecs trivRewrap tdCancelExample) =
      .ok tdCancelExample :=
  ⟨rfl, validate_idempotent_on_rewrapped trivCodecs trivRewrap tdCancelExample rfl⟩

/-- Claim C10: the union decoder reads only the `type`, `content` and
`sender` projections of the payload, so any two payloads agreeing on those
three lookups — in particular a payload before and after adding or removing
any other top-level field — decode identically. -/
theorem decode_depends_only_on_known_fields (cs : Codecs) (v w : Json)
    (ht : Json.getObjField v "type" = Json.getObjField w "type")
    (hs : Json.getObjField v "sender" = Json.getObjField w "sender")
    (hc : Json.getObjField v "content" = Json.getObjField w "content") :
    RawToDevice.deserialize cs v = RawToDevice.deserialize cs w := by
  have hgt : getTypeField v = getTypeField w := by unfold getTypeField; rw [ht]
  have henv : ∀ (R : Type) (d : Json → Except String R),
      ToDeviceEvent.deserialize d v = ToDeviceEvent.deserialize d w := by
    intro R d
    unfold ToDeviceEvent.deserialize getField
    rw [hs, hc]
  cases hgt2 : getTypeField w with
  | error e =>
      have hv : getTypeField v = .error e := hgt.trans hgt2
      unfold RawToDevice.deserialize
      rw [hv, hgt2]
  | ok tag =>
      have hv : getTypeField v = .ok tag := hgt.trans hgt2
      rw [RawToDevice.deserialize_ok_tag cs v tag hv,
        RawToDevice.deserialize_ok_tag cs w tag hgt2]
      cases lookupTag tag with
      | none => rfl
      | some k => cases k <;> simp only [tryVariantFromValue, henv]

/-- The room-key payload with an extra top-level field added. -/
def roomKeyPayloadExtra : Json :=
  .obj [("type", .str "m.room_key"), ("sender", .str "@alice:example.org"),
    ("content", .obj [("algorithm", .str "m.megolm.v1.aes-sha2")]),
    ("unsigned", .obj [("age", .num 1234)])]

/-- Claim C10 witness: adding an extra `unsigned` field to the concrete
room-key payload leaves the decode result unchanged. -/
theorem decode_depends_only_on_known_fields_witness :
    Json.getObjField roomKeyPayload "type" = Json.getObjField roomKeyPayloadExtra "type" ∧
    Json.getObjField roomKeyPayload "sender" = Json.getObjField roomKeyPayloadExtra "sender" ∧
    Json.getObjField roomKeyPayload "content" = Json.getObjField roomKeyPayloadExtra "content" ∧
    RawToDevice.deserialize trivCodecs roomKeyPayload =
      RawToDevice.deserialize trivCodecs roomKeyPayloadExtra :=
  ⟨rfl, rfl, rfl,
    decode_depends_only_on_known_fields trivCodecs roomKeyPayload roomKeyPayloadExtra
      rfl rfl rfl⟩
